import Mathlib

/-!
Verification of the secret-message grid printer (`src/OAS/joe.py`).

The program fetches a published document, parses its first HTML table into
(x, character, y) cells, builds a rectangular character grid and prints it.
HTML documents are embedded abstractly: a document is the list of its tables
in document order, a table is its list of rows, a row the list of the raw
text contents of its cell elements (both data-cell and header-cell variants,
in order).  Everything below the HTML library boundary is translated
directly from the Python source.
-/

namespace Career

/-- A row of an HTML table: the raw text of each of its cell elements. -/
abbrev HRow := List String

/-- A table: its rows (`find_all("tr")`), in document order. -/
abbrev HTable := List HRow

/-- An HTML document, abstracted to the list of its tables in document
order (`soup.find("table")` returns the head of this list). -/
structure HDoc where
  tables : List HTable
deriving DecidableEq

/-- `Cell` dataclass from the source: x, y coordinates and the character
text `ch` (a Python `str`; the parser only ever stores 1-character
strings, which is proved below, not baked into the type). -/
structure Cell where
  x : Int
  y : Int
  ch : String
deriving DecidableEq

/-- Python's Unicode whitespace class, the exact set matched by `re`'s
`\s` and stripped by `str.strip()` (CPython 3.11 / Unicode 14): ASCII
tab through carriage return and space, the C0 separators 1C-1F, NEL 85,
NBSP A0, Ogham space 1680, the Zs/Zl/Zp separators 2000-200A, 2028,
2029, 202F, 205F and 3000. -/
def isPySpace (c : Char) : Bool :=
  let n := c.toNat
  (9 ≤ n && n ≤ 13) || (28 ≤ n && n ≤ 32) || n == 0x85 || n == 0xA0 ||
  n == 0x1680 || (0x2000 ≤ n && n ≤ 0x200A) || n == 0x2028 || n == 0x2029 ||
  n == 0x202F || n == 0x205F || n == 0x3000

/-- One `re.sub(r"\s+", " ", s)` pass: every maximal run of whitespace
becomes a single space.  The flag records whether the previous character
was whitespace (i.e. we are inside a run). -/
def collapseWS : Bool → List Char → List Char
  | _, [] => []
  | inRun, c :: rest =>
    if isPySpace c then
      if inRun then collapseWS true rest else ' ' :: collapseWS true rest
    else c :: collapseWS false rest

/-- Python `str.strip()` on the result of the collapse pass. -/
def stripWS (l : List Char) : List Char :=
  ((l.dropWhile isPySpace).reverse.dropWhile isPySpace).reverse

/-- `_clean_text` from the source: replace NBSP by a space, collapse each
whitespace run to one space, strip the ends. -/
def _clean_text (s : String) : String :=
  let noNbsp := s.toList.map (fun c => if c = '\u00A0' then ' ' else c)
  String.mk (stripWS (collapseWS false noNbsp))

/-- The whitespace `int()` strips around its argument: the same class as
`isPySpace` except the C0 separators 1C-1F (verified against CPython
3.11, where `int("\x1c5")` raises while `"\x1c5".strip()` is `"5"`). -/
def isIntSpace (c : Char) : Bool :=
  let n := c.toNat
  (9 ≤ n && n ≤ 13) || n == 32 || n == 0x85 || n == 0xA0 ||
  n == 0x1680 || (0x2000 ≤ n && n ≤ 0x200A) || n == 0x2028 || n == 0x2029 ||
  n == 0x202F || n == 0x205F || n == 0x3000

/-- First code points of the 66 runs of Unicode decimal digits
(Numeric_Type=Decimal, Unicode 14, the digits `int()` accepts): the
character at `s + d` for a run start `s` is the digit of value `d`,
`0 ≤ d ≤ 9`. -/
def ndRunStarts : List Nat :=
  [0x30, 0x660, 0x6F0, 0x7C0, 0x966, 0x9E6, 0xA66, 0xAE6, 0xB66, 0xBE6,
   0xC66, 0xCE6, 0xD66, 0xDE6, 0xE50, 0xED0, 0xF20, 0x1040, 0x1090, 0x17E0,
   0x1810, 0x1946, 0x19D0, 0x1A80, 0x1A90, 0x1B50, 0x1BB0, 0x1C40, 0x1C50,
   0xA620, 0xA8D0, 0xA900, 0xA9D0, 0xA9F0, 0xAA50, 0xABF0, 0xFF10, 0x104A0,
   0x10D30, 0x11066, 0x110F0, 0x11136, 0x111D0, 0x112F0, 0x11450, 0x114D0,
   0x11650, 0x116C0, 0x11730, 0x118E0, 0x11950, 0x11C50, 0x11D50, 0x11DA0,
   0x16A60, 0x16AC0, 0x16B50, 0x1D7CE, 0x1D7D8, 0x1D7E2, 0x1D7EC, 0x1D7F6,
   0x1E140, 0x1E2F0, 0x1E950, 0x1FBF0]

/-- The decimal value of a Unicode decimal digit, `none` for any other
character. -/
def pyDigitVal (c : Char) : Option Nat :=
  (ndRunStarts.find? (fun s => s ≤ c.toNat && c.toNat ≤ s + 9)).map
    (fun s => c.toNat - s)

/-- Tail of the digit part of Python's integer grammar, after at least
one digit has been read into `acc`: further digits, with a single
underscore allowed only between two digits (PEP 515). -/
def digitsRest (acc : Nat) : List Char → Option Nat
  | [] => some acc
  | '_' :: c :: rest =>
    match pyDigitVal c with
    | some d => digitsRest (acc * 10 + d) rest
    | none => none
  | ['_'] => none
  | c :: rest =>
    match pyDigitVal c with
    | some d => digitsRest (acc * 10 + d) rest
    | none => none

/-- The digit part of Python's integer grammar: a nonempty run of
Unicode decimal digits with single underscores allowed between digits. -/
def parseDigits : List Char → Option Nat
  | [] => none
  | c :: rest =>
    match pyDigitVal c with
    | some d => digitsRest d rest
    | none => none

/-- Python `int(s)`: optional surrounding whitespace, an optional single
ASCII sign, then the digit part; anything else raises `ValueError`
(here: `none`). -/
def pyInt (s : String) : Option Int :=
  match ((s.toList.dropWhile isIntSpace).reverse.dropWhile isIntSpace).reverse with
  | '+' :: rest => (parseDigits rest).map (fun n => (n : Int))
  | '-' :: rest => (parseDigits rest).map (fun n => -(n : Int))
  | l => (parseDigits l).map (fun n => (n : Int))

/-- Lines 59-63 of the source: the character for a cell, from the cleaned
text of cell 1.  Empty text gives a blank space; multi-character text
gives the first non-space character, falling back to the first
character. -/
def chooseCh (ch_txt : String) : String :=
  let ch := if ch_txt.isEmpty then " " else ch_txt
  if ch.length > 1 then
    String.singleton
      (match ch.toList.find? (fun c => c ≠ ' ') with
       | some c => c
       | none => ch.toList.headD ' ')
  else ch

/-- Loop body of `_parse_cells_from_published_doc_html` for one data row:
`none` means the row is skipped silently (`continue`). -/
def parseRowCells (tds : HRow) : Option Cell :=
  if tds.length < 3 then none
  else
    let x_txt := _clean_text (tds.getD 0 "")
    let ch_txt := _clean_text (tds.getD 1 "")
    let y_txt := _clean_text (tds.getD 2 "")
    if x_txt.isEmpty || y_txt.isEmpty then none
    else
      match pyInt x_txt, pyInt y_txt with
      | some x, some y => some { x := x, y := y, ch := chooseCh ch_txt }
      | _, _ => none

/-- The three `ValueError`s `_parse_cells_from_published_doc_html` can
raise. -/
inductive FormatError where
  | noTable
  | noDataRows
  | noValidRows
deriving DecidableEq

/-- `_parse_cells_from_published_doc_html`: first table, first row is a
discarded header, remaining rows parsed with silent skip, error if the
result is empty. -/
def _parse_cells_from_published_doc_html (doc : HDoc) : Except FormatError (List Cell) :=
  match doc.tables.head? with
  | none => .error .noTable
  | some rows =>
    if rows.length < 2 then .error .noDataRows
    else
      let cells := (rows.drop 1).filterMap parseRowCells
      if cells.isEmpty then .error .noValidRows else .ok cells

/-- Python `max` over a list (raises, i.e. `none`, on an empty one). -/
def pyMax : List Int → Option Int
  | [] => none
  | a :: rest => some (rest.foldl max a)

/-- `max(c.x for c in cells)`. -/
def maxXs (cells : List Cell) : Option Int :=
  pyMax (cells.map Cell.x)

/-- `max(c.y for c in cells)`. -/
def maxYs (cells : List Cell) : Option Int :=
  pyMax (cells.map Cell.y)

/-- The freshly allocated grid: `(max_y + 1)` rows of `(max_x + 1)` blank
strings; Python's `range(n)` is empty for `n ≤ 0`, which `Int.toNat`
mirrors. -/
def emptyGrid (mx my : Int) : List (List String) :=
  List.replicate (my + 1).toNat (List.replicate (mx + 1).toNat " ")

/-- One iteration of the placement loop:
`if 0 <= c.x <= max_x and 0 <= c.y <= max_y: grid[max_y - c.y][c.x] = c.ch`. -/
def place (mx my : Int) (g : List (List String)) (c : Cell) : List (List String) :=
  if 0 ≤ c.x ∧ c.x ≤ mx ∧ 0 ≤ c.y ∧ c.y ≤ my then
    g.set (my - c.y).toNat ((g.getD (my - c.y).toNat []).set c.x.toNat c.ch)
  else g

/-- Grid construction: compute the two maxima (failing on an empty cell
list, as Python `max` does), allocate, and run the placement loop. -/
def buildGrid (cells : List Cell) : Option (List (List String)) :=
  match maxXs cells, maxYs cells with
  | some mx, some my => some (cells.foldl (place mx my) (emptyGrid mx my))
  | _, _ => none

/-- The rendered output: `"".join(row)` for each grid row, in order. -/
def renderGrid (g : List (List String)) : List String :=
  g.map String.join

/-- Read the grid at a row/column pair (out-of-range reads return the
blank the grid was initialised with). -/
def gridAt (g : List (List String)) (r c : Nat) : String :=
  (g.getD r []).getD c " "

/-- An HTTP response, as far as the program looks at it. -/
structure RawResponse where
  status : Nat
  text : String
deriving DecidableEq

/-- The fetch failure (`requests.HTTPError` from `raise_for_status`). -/
structure FetchError where
  status : Nat
deriving DecidableEq

/-- Lines 80-81 of the source: `requests.get` followed by
`raise_for_status()`, which raises exactly for 4xx and 5xx status codes;
on any other status the body text is returned. -/
def fetchText (r : RawResponse) : Except FetchError String :=
  if 400 ≤ r.status ∧ r.status < 600 then .error ⟨r.status⟩ else .ok r.text

/-- Failures of the whole pipeline. -/
inductive PipeError where
  | fetch (status : Nat)
  | format (e : FormatError)
  | emptyMax
deriving DecidableEq

/-- `print_secret_message_grid`, with the HTML library abstracted as a
function from body text to the document tree: fetch, parse cells, build
the grid, render its rows.  `emptyMax` marks the `max`-on-empty raise,
which is proved unreachable. -/
def print_secret_message_grid (parseHtml : String → HDoc) (r : RawResponse) :
    Except PipeError (List String) :=
  match fetchText r with
  | .error e => .error (.fetch e.status)
  | .ok body =>
    match _parse_cells_from_published_doc_html (parseHtml body) with
    | .error e => .error (.format e)
    | .ok cells =>
      match buildGrid cells with
      | none => .error .emptyMax
      | some g => .ok (renderGrid g)


/-! ### List helper lemmas -/

theorem getD_set_self {α : Type} (l : List α) (i : Nat) (a d : α) (h : i < l.length) :
    (l.set i a).getD i d = a := by
  rw [List.getD_eq_getElem _ _ (by rw [List.length_set]; exact h)]
  exact List.getElem_set_self _

theorem getD_set_ne {α : Type} (l : List α) (i j : Nat) (a d : α) (h : i ≠ j) :
    (l.set i a).getD j d = l.getD j d := by
  by_cases hj : j < l.length
  · rw [List.getD_eq_getElem _ _ (by rw [List.length_set]; exact hj),
      List.getD_eq_getElem l d hj]
    exact List.getElem_set_ne h _
  · rw [List.getD_eq_default _ _ (by rw [List.length_set]; omega),
      List.getD_eq_default _ _ (by omega)]

theorem length_filterMap_le {α β : Type} (f : α → Option β) (l : List α) :
    (l.filterMap f).length ≤ l.length := by
  induction l with
  | nil => simp
  | cons a tl ih =>
    rw [List.filterMap_cons]
    cases f a <;> simp <;> omega

/-! ### Shape invariants of the placement loop -/

theorem length_place (mx my : Int) (g : List (List String)) (c : Cell) :
    (place mx my g c).length = g.length := by
  unfold place
  split
  · exact List.length_set ..
  · rfl

theorem length_foldl_place (mx my : Int) (cells : List Cell) (g : List (List String)) :
    (cells.foldl (place mx my) g).length = g.length := by
  induction cells generalizing g with
  | nil => rfl
  | cons c tl ih => rw [List.foldl_cons, ih, length_place]

theorem rows_place (mx my : Int) (g : List (List String)) (c : Cell)
    (hrow : ∀ row ∈ g, row.length = (mx + 1).toNat) :
    ∀ row ∈ place mx my g c, row.length = (mx + 1).toNat := by
  unfold place
  split
  · intro row hr
    by_cases hi : (my - c.y).toNat < g.length
    · rcases List.mem_or_eq_of_mem_set hr with h | h
      · exact hrow _ h
      · subst h
        rw [List.length_set, List.getD_eq_getElem _ _ hi]
        exact hrow _ (List.getElem_mem hi)
    · rw [List.set_eq_of_length_le (by omega)] at hr
      exact hrow _ hr
  · exact hrow

theorem entries_place (mx my : Int) (g : List (List String)) (c : Cell)
    (hch : c.ch.length = 1)
    (hent : ∀ row ∈ g, ∀ s ∈ row, s.length = 1) :
    ∀ row ∈ place mx my g c, ∀ s ∈ row, s.length = 1 := by
  unfold place
  split
  · intro row hr s hs
    by_cases hi : (my - c.y).toNat < g.length
    · rcases List.mem_or_eq_of_mem_set hr with h | h
      · exact hent _ h s hs
      · subst h
        rcases List.mem_or_eq_of_mem_set hs with h2 | h2
        · rw [List.getD_eq_getElem _ _ hi] at h2
          exact hent _ (List.getElem_mem hi) s h2
        · subst h2; exact hch
    · rw [List.set_eq_of_length_le (by omega)] at hr
      exact hent _ hr s hs
  · exact hent


/-! ### Characterising the placement loop -/

/-- The cells whose write in the placement loop targets grid position
`(r, col)`: in-bounds cells with `max_y - y = r` and `x = col`. -/
def hits (mx my : Int) (r col : Nat) (c : Cell) : Bool :=
  decide (0 ≤ c.x ∧ c.x ≤ mx ∧ 0 ≤ c.y ∧ c.y ≤ my)
    && ((my - c.y).toNat == r) && (c.x.toNat == col)

theorem gridAt_place (mx my : Int) (g : List (List String)) (c : Cell) (r col : Nat)
    (hg : g.length = (my + 1).toNat)
    (hrow : ∀ row ∈ g, row.length = (mx + 1).toNat) :
    gridAt (place mx my g c) r col =
      if hits mx my r col c then c.ch else gridAt g r col := by
  unfold place hits gridAt
  by_cases hb : 0 ≤ c.x ∧ c.x ≤ mx ∧ 0 ≤ c.y ∧ c.y ≤ my
  · rw [if_pos hb]
    have hri : (my - c.y).toNat < g.length := by rw [hg]; omega
    by_cases hr : (my - c.y).toNat = r
    · subst hr
      rw [getD_set_self _ _ _ _ hri]
      by_cases hc : c.x.toNat = col
      · subst hc
        have hcol : c.x.toNat < ((g.getD (my - c.y).toNat []).set c.x.toNat c.ch).length := by
          rw [List.length_set, List.getD_eq_getElem _ _ hri]
          rw [hrow _ (List.getElem_mem hri)]
          omega
        rw [if_pos (by simp [hb])]
        rw [List.getD_eq_getElem _ _ hcol]
        exact List.getElem_set_self _
      · rw [if_neg (by simp [hc])]
        rw [getD_set_ne _ _ _ _ _ hc]
    · rw [if_neg (by simp [hr])]
      rw [getD_set_ne _ _ _ _ _ hr]
  · rw [if_neg hb, if_neg (by simp [hb])]

theorem gridAt_foldl_place (mx my : Int) (cells : List Cell)
    (g : List (List String)) (r col : Nat)
    (hg : g.length = (my + 1).toNat)
    (hrow : ∀ row ∈ g, row.length = (mx + 1).toNat) :
    gridAt (cells.foldl (place mx my) g) r col =
      match (cells.filter (hits mx my r col)).getLast? with
      | some c => c.ch
      | none => gridAt g r col := by
  induction cells generalizing g with
  | nil => rfl
  | cons c tl ih =>
    rw [List.foldl_cons, List.filter_cons]
    have hg' : (place mx my g c).length = (my + 1).toNat := by
      rw [length_place]; exact hg
    have hrow' := rows_place mx my g c hrow
    rw [ih (place mx my g c) hg' hrow']
    rw [gridAt_place mx my g c r col hg hrow]
    by_cases hc : hits mx my r col c
    · rw [if_pos hc, if_pos hc]
      cases hfil : tl.filter (hits mx my r col) with
      | nil => rfl
      | cons d ds =>
        rw [List.getLast?_cons_cons]
        have hne : (d :: ds).getLast? ≠ none := by
          rw [Ne, List.getLast?_eq_none_iff]; simp
        cases h2 : (d :: ds).getLast? with
        | none => exact absurd h2 hne
        | some x => rfl
    · rw [if_neg hc, if_neg hc]

/-! ### Shape of the freshly allocated grid -/

theorem length_emptyGrid (mx my : Int) : (emptyGrid mx my).length = (my + 1).toNat := by
  unfold emptyGrid; exact List.length_replicate ..

theorem rows_emptyGrid (mx my : Int) :
    ∀ row ∈ emptyGrid mx my, row.length = (mx + 1).toNat := by
  intro row hr
  have := List.eq_of_mem_replicate hr
  rw [this]
  exact List.length_replicate ..

theorem entries_emptyGrid (mx my : Int) :
    ∀ row ∈ emptyGrid mx my, ∀ s ∈ row, s.length = 1 := by
  intro row hr s hs
  rw [List.eq_of_mem_replicate hr] at hs
  rw [List.eq_of_mem_replicate hs]
  rfl

theorem getD_replicate_eq {α : Type} (n : Nat) (a d : α) (i : Nat) :
    (List.replicate n a).getD i d = if i < n then a else d := by
  by_cases h : i < n
  · rw [if_pos h, List.getD_eq_getElem _ _ (by rw [List.length_replicate]; exact h)]
    exact List.getElem_replicate ..
  · rw [if_neg h]
    exact List.getD_eq_default _ _ (by rw [List.length_replicate]; omega)

theorem gridAt_emptyGrid (mx my : Int) (r col : Nat) :
    gridAt (emptyGrid mx my) r col = " " := by
  unfold gridAt emptyGrid
  rw [getD_replicate_eq]
  by_cases hr : r < (my + 1).toNat
  · rw [if_pos hr, getD_replicate_eq]
    by_cases hc : col < (mx + 1).toNat
    · rw [if_pos hc]
    · rw [if_neg hc]
  · rw [if_neg hr]
    rfl

/-! ### The built grid -/

theorem buildGrid_eq (cells : List Cell) (mx my : Int)
    (hmx : maxXs cells = some mx) (hmy : maxYs cells = some my) :
    buildGrid cells = some (cells.foldl (place mx my) (emptyGrid mx my)) := by
  unfold buildGrid
  rw [hmx, hmy]

theorem gridAt_buildGrid (cells : List Cell) (mx my : Int) (g : List (List String))
    (hmx : maxXs cells = some mx) (hmy : maxYs cells = some my)
    (hg : buildGrid cells = some g) (r col : Nat) :
    gridAt g r col =
      match (cells.filter (hits mx my r col)).getLast? with
      | some c => c.ch
      | none => " " := by
  rw [buildGrid_eq cells mx my hmx hmy] at hg
  have hg2 := Option.some.inj hg
  subst hg2
  rw [gridAt_foldl_place mx my cells (emptyGrid mx my) r col
    (length_emptyGrid mx my) (rows_emptyGrid mx my)]
  cases (cells.filter (hits mx my r col)).getLast? with
  | none => exact gridAt_emptyGrid ..
  | some c => rfl


/-! ### Parser helper lemmas -/

theorem length_pos_of_not_isEmpty (s : String) (h : s.isEmpty = false) : 1 ≤ s.length := by
  by_contra hlt
  push_neg at hlt
  have h0 : s.length = 0 := by omega
  have hs : s = "" := by
    cases s with
    | mk data =>
      simp [String.length] at h0
      subst h0
      rfl
  subst hs
  exact absurd h (by decide)

/-- The chosen character always has length exactly one. -/
theorem chooseCh_length (s : String) : (chooseCh s).length = 1 := by
  unfold chooseCh
  by_cases he : s.isEmpty
  · simp only [he, if_true]
    rfl
  · simp only [eq_false_of_ne_true he, Bool.false_eq_true, if_false]
    by_cases hl : s.length > 1
    · simp only [hl, if_true]
      exact String.length_singleton _
    · simp only [hl, if_false]
      have h1 := length_pos_of_not_isEmpty s (eq_false_of_ne_true he)
      omega

/-- Inversion of the row loop body on acceptance. -/
theorem parseRowCells_eq_some (tds : HRow) (c : Cell) (h : parseRowCells tds = some c) :
    ¬ tds.length < 3 ∧
    pyInt (_clean_text (tds.getD 0 "")) = some c.x ∧
    pyInt (_clean_text (tds.getD 2 "")) = some c.y ∧
    c.ch = chooseCh (_clean_text (tds.getD 1 "")) := by
  unfold parseRowCells at h
  split at h
  · exact absurd h (by simp)
  · next h3 =>
    dsimp only at h
    split at h
    · exact absurd h (by simp)
    · next hemp =>
      split at h
      · next x y hx hy =>
        have hc := Option.some.inj h
        refine ⟨h3, ?_, ?_, ?_⟩
        · rw [← hc]
          exact hx
        · rw [← hc]
          exact hy
        · rw [← hc]
      · exact absurd h (by simp)

/-- Characterisation of a successful parse. -/
theorem parse_ok_iff (doc : HDoc) (cs : List Cell) :
    _parse_cells_from_published_doc_html doc = .ok cs ↔
      ∃ t, doc.tables.head? = some t ∧ 2 ≤ t.length ∧
        cs = (t.drop 1).filterMap parseRowCells ∧ cs ≠ [] := by
  unfold _parse_cells_from_published_doc_html
  cases hh : doc.tables.head? with
  | none => simp
  | some t =>
    simp only
    by_cases h2 : t.length < 2
    · rw [if_pos h2]
      constructor
      · intro h; exact absurd h (by simp)
      · rintro ⟨t', ht', hl', hcs, hne⟩
        injection ht' with ht'
        subst ht'
        omega
    · rw [if_neg h2]
      by_cases hemp : ((t.drop 1).filterMap parseRowCells).isEmpty
      · rw [if_pos hemp]
        constructor
        · intro h; exact absurd h (by simp)
        · rintro ⟨t', ht', hl', hcs, hne⟩
          injection ht' with ht'
          subst ht'
          rw [List.isEmpty_iff] at hemp
          rw [hemp] at hcs
          exact absurd hcs hne
      · rw [if_neg hemp]
        constructor
        · intro h
          injection h with h
          refine ⟨t, rfl, by omega, h.symm, ?_⟩
          rw [← h]
          intro hc
          rw [hc] at hemp
          simp at hemp
        · rintro ⟨t', ht', hl', hcs, hne⟩
          injection ht' with ht'
          subst ht'
          rw [hcs]

/-- Every parsed cell carries a 1-character string. -/
theorem parse_ch_length (doc : HDoc) (cs : List Cell)
    (h : _parse_cells_from_published_doc_html doc = .ok cs) :
    ∀ c ∈ cs, c.ch.length = 1 := by
  rcases (parse_ok_iff doc cs).mp h with ⟨t, _, _, hcs, _⟩
  intro c hc
  rw [hcs] at hc
  rcases List.mem_filterMap.mp hc with ⟨tds, _, htds⟩
  rw [(parseRowCells_eq_some tds c htds).2.2.2]
  exact chooseCh_length _


/-! ### filterMap index tracking (order preservation) -/

theorem filterMap_getElem_of_accepted {α β : Type} (f : α → Option β) (l : List α)
    (i : Nat) (x : α) (b : β) (hx : l[i]? = some x) (hfx : f x = some b) :
    (l.filterMap f)[((l.take i).filterMap f).length]? = some b := by
  induction l generalizing i with
  | nil => rw [List.getElem?_nil] at hx; exact absurd hx (by simp)
  | cons a tl ih =>
    cases i with
    | zero =>
      rw [List.getElem?_cons_zero] at hx
      have hax := Option.some.inj hx
      subst hax
      rw [List.take_zero, List.filterMap_nil, List.length_nil,
        List.filterMap_cons, hfx, List.getElem?_cons_zero]
    | succ i =>
      rw [List.getElem?_cons_succ] at hx
      rw [List.take_succ_cons, List.filterMap_cons, List.filterMap_cons]
      cases hfa : f a with
      | none => exact ih i hx
      | some y =>
        rw [List.length_cons, List.getElem?_cons_succ]
        exact ih i hx

theorem filterMap_take_length_lt {α β : Type} (f : α → Option β) (l : List α)
    (i j : Nat) (x : α) (hij : i < j) (hx : l[i]? = some x) (hfx : (f x).isSome) :
    ((l.take i).filterMap f).length < ((l.take j).filterMap f).length := by
  rcases Option.isSome_iff_exists.mp hfx with ⟨b, hb⟩
  have hstep : ((l.take (i + 1)).filterMap f).length
      = ((l.take i).filterMap f).length + 1 := by
    rw [List.take_succ, hx, List.filterMap_append]
    rw [List.length_append]
    simp [hb]
  have hmono : ((l.take (i + 1)).filterMap f).length
      ≤ ((l.take j).filterMap f).length := by
    have heq : l.take (i + 1) = (l.take j).take (i + 1) := by
      rw [List.take_take]
      congr 1
      omega
    rw [heq]
    exact ((List.take_sublist _ _).filterMap f).length_le
  omega

/-! ### Length of a rendered line -/

theorem length_foldl_append (l : List String) (acc : String) :
    (l.foldl (fun r s => r ++ s) acc).length = acc.length + (l.map String.length).sum := by
  induction l generalizing acc with
  | nil => simp
  | cons a tl ih =>
    rw [List.foldl_cons, ih, List.map_cons, List.sum_cons, String.length_append]
    omega

theorem join_length_of_ones (row : List String) (h : ∀ s ∈ row, s.length = 1) :
    (String.join row).length = row.length := by
  unfold String.join
  rw [length_foldl_append]
  have hsum : (row.map String.length).sum = row.length := by
    induction row with
    | nil => rfl
    | cons a tl ih =>
      rw [List.map_cons, List.sum_cons, List.length_cons]
      rw [ih (fun s hs => h s (by simp [hs]))]
      rw [h a (by simp)]
      omega
  rw [hsum]
  simp


/-! ### Concrete example documents -/

/-- The spec's end-to-end example table: header plus rows
(0, "a", 0), (1, "b", 0), (0, "c", 1). -/
def docEx : HDoc :=
  ⟨[[["x-coordinate", "Character", "y-coordinate"],
     ["0", "a", "0"], ["1", "b", "0"], ["0", "c", "1"]]]⟩

/-- A table whose single data row has a negative y coordinate. -/
def docNegY : HDoc := ⟨[[["x", "ch", "y"], ["0", "a", "-2"]]]⟩

/-- A table with a fully negative-coordinate row followed by a normal row. -/
def docNegXY : HDoc := ⟨[[["x", "ch", "y"], ["-1", "a", "-2"], ["0", "b", "0"]]]⟩

/-! ### Claims -/

/-- C4: the table parser fails with a format-level error if and only if
the document has no table (`noTable`), the first table has fewer than 2
rows (`noDataRows`), or per-row filtering leaves no cells
(`noValidRows`); in every other case it returns a non-empty cell
sequence. -/
theorem claim_C4 (doc : HDoc) :
    (_parse_cells_from_published_doc_html doc = .error .noTable ↔
      doc.tables.head? = none) ∧
    (_parse_cells_from_published_doc_html doc = .error .noDataRows ↔
      ∃ t, doc.tables.head? = some t ∧ t.length < 2) ∧
    (_parse_cells_from_published_doc_html doc = .error .noValidRows ↔
      ∃ t, doc.tables.head? = some t ∧ 2 ≤ t.length ∧
        (t.drop 1).filterMap parseRowCells = []) ∧
    (∀ cs, _parse_cells_from_published_doc_html doc = .ok cs → cs ≠ []) := by
  unfold _parse_cells_from_published_doc_html
  cases hh : doc.tables.head? with
  | none =>
    refine ⟨by simp, by simp, by simp, by simp⟩
  | some t =>
    simp only
    by_cases h2 : t.length < 2
    · rw [if_pos h2]
      refine ⟨by simp, ?_, ?_, by simp⟩
      · constructor
        · intro _
          exact ⟨t, rfl, h2⟩
        · intro _
          rfl
      · constructor
        · intro h
          exact absurd h (by simp)
        · rintro ⟨t', ht', hl', _⟩
          injection ht' with ht'
          subst ht'
          omega
    · rw [if_neg h2]
      by_cases hemp : ((t.drop 1).filterMap parseRowCells).isEmpty
      · rw [if_pos hemp]
        rw [List.isEmpty_iff] at hemp
        refine ⟨by simp, ?_, ?_, by simp⟩
        · constructor
          · intro h
            exact absurd h (by simp)
          · rintro ⟨t', ht', hl'⟩
            injection ht' with ht'
            subst ht'
            omega
        · constructor
          · intro _
            exact ⟨t, rfl, by omega, hemp⟩
          · intro _
            rfl
      · rw [if_neg hemp]
        refine ⟨by simp, ?_, ?_, ?_⟩
        · constructor
          · intro h
            exact absurd h (by simp)
          · rintro ⟨t', ht', hl'⟩
            injection ht' with ht'
            subst ht'
            omega
        · constructor
          · intro h
            exact absurd h (by simp)
          · rintro ⟨t', ht', hl', hfil⟩
            injection ht' with ht'
            subst ht'
            rw [hfil] at hemp
            simp at hemp
        · intro cs h
          injection h with h
          rw [← h]
          intro hc
          rw [hc] at hemp
          simp at hemp

/-- Witness for C4: the example document parses to a non-empty sequence. -/
theorem claim_C4_witness :
    ([⟨0, 0, "a"⟩, ⟨1, 0, "b"⟩, ⟨0, 1, "c"⟩] : List Cell) ≠ [] :=
  (claim_C4 docEx).2.2.2 _ (by rfl)


/-- C5: a data row with fewer than 3 cells, an empty normalized x or y
text, or a non-integer x or y text is skipped silently (produces no cell
and no error), and the overall parse still succeeds when some other row
is valid. -/
theorem claim_C5 :
    (∀ tds : HRow, tds.length < 3 → parseRowCells tds = none) ∧
    (∀ tds : HRow,
      _clean_text (tds.getD 0 "") = "" ∨ _clean_text (tds.getD 2 "") = "" →
      parseRowCells tds = none) ∧
    (∀ tds : HRow,
      pyInt (_clean_text (tds.getD 0 "")) = none ∨
        pyInt (_clean_text (tds.getD 2 "")) = none →
      parseRowCells tds = none) ∧
    (∀ (doc : HDoc) (t : HTable) (ts : List HTable),
      doc.tables = t :: ts →
      (∃ row ∈ t.drop 1, (parseRowCells row).isSome) →
      ∃ cs, _parse_cells_from_published_doc_html doc = .ok cs ∧ cs ≠ []) := by
  refine ⟨?_, ?_, ?_, ?_⟩
  · intro tds h
    unfold parseRowCells
    rw [if_pos h]
  · intro tds h
    unfold parseRowCells
    split
    · rfl
    · dsimp only
      have hcond : ((_clean_text (tds.getD 0 "")).isEmpty
          || (_clean_text (tds.getD 2 "")).isEmpty) = true := by
        rcases h with h | h <;> rw [h] <;>
          simp only [show ("" : String).isEmpty = true from rfl,
            Bool.true_or, Bool.or_true]
      rw [if_pos hcond]
  · intro tds h
    unfold parseRowCells
    split
    · rfl
    · dsimp only
      by_cases hemp : ((_clean_text (tds.getD 0 "")).isEmpty
          || (_clean_text (tds.getD 2 "")).isEmpty) = true
      · rw [if_pos hemp]
      · rw [if_neg hemp]
        rcases h with h | h
        · cases hy : pyInt (_clean_text (tds.getD 2 "")) <;> rw [h]
        · cases hx : pyInt (_clean_text (tds.getD 0 "")) <;> rw [h]
  · rintro doc t ts hdoc ⟨row, hrow, hsome⟩
    rcases Option.isSome_iff_exists.mp hsome with ⟨c, hc⟩
    have hne : (t.drop 1).filterMap parseRowCells ≠ [] := by
      intro hnil
      have : c ∈ (t.drop 1).filterMap parseRowCells :=
        List.mem_filterMap.mpr ⟨row, hrow, hc⟩
      rw [hnil] at this
      exact absurd this (by simp)
    have hlen : 2 ≤ t.length := by
      have h1 : (t.drop 1).length ≠ 0 := by
        intro h0
        rw [List.length_eq_zero] at h0
        rw [h0] at hrow
        exact absurd hrow (by simp)
      rw [List.length_drop] at h1
      omega
    refine ⟨(t.drop 1).filterMap parseRowCells, ?_, hne⟩
    rw [parse_ok_iff]
    exact ⟨t, by rw [hdoc]; rfl, hlen, rfl, hne⟩

/-- Witness for C5: a 2-cell row, an empty-x row and a non-numeric-y row
are each skipped, while the example document still parses. -/
theorem claim_C5_witness :
    parseRowCells ["1", "a"] = none ∧
    parseRowCells ["", "a", "2"] = none ∧
    parseRowCells ["1", "a", "zz"] = none ∧
    ∃ cs, _parse_cells_from_published_doc_html docEx = .ok cs ∧ cs ≠ [] :=
  ⟨claim_C5.1 ["1", "a"] (by decide),
   claim_C5.2.1 ["", "a", "2"] (Or.inl (by rfl)),
   claim_C5.2.2.1 ["1", "a", "zz"] (Or.inr (by rfl)),
   claim_C5.2.2.2 docEx _ [] rfl ⟨["0", "a", "0"], by decide, by rfl⟩⟩

/-- C6: the accepted cell's character is exactly the one chosen from the
normalized text of cell 1 (blank space if empty, the character itself if
single, else the first non-space character with fallback to the first
character), it always has length 1, and the raw texts `"A "` and `"  "`
yield `"A"` and a blank space respectively. -/
theorem claim_C6 :
    (∀ (tds : HRow) (c : Cell), parseRowCells tds = some c →
      c.ch = chooseCh (_clean_text (tds.getD 1 "")) ∧ c.ch.length = 1) ∧
    (∀ s : String,
      (s = "" → chooseCh s = " ") ∧
      (s.length = 1 → chooseCh s = s) ∧
      (1 < s.length →
        chooseCh s = String.singleton
          ((s.toList.find? (fun ch => ch ≠ ' ')).getD (s.toList.headD ' ')))) ∧
    chooseCh (_clean_text "A ") = "A" ∧ chooseCh (_clean_text "  ") = " " := by
  refine ⟨?_, ?_, rfl, rfl⟩
  · intro tds c h
    have hch := (parseRowCells_eq_some tds c h).2.2.2
    exact ⟨hch, by rw [hch]; exact chooseCh_length _⟩
  · intro s
    refine ⟨?_, ?_, ?_⟩
    · intro h
      subst h
      rfl
    · intro h
      unfold chooseCh
      have he : s.isEmpty = false := by
        cases hb : s.isEmpty with
        | false => rfl
        | true =>
          rw [(String.isEmpty_iff s).mp hb] at h
          exact absurd h (by decide)
      rw [he]
      simp only [Bool.false_eq_true, if_false, h]
      rfl
    · intro h
      unfold chooseCh
      have he : s.isEmpty = false := by
        cases hb : s.isEmpty with
        | false => rfl
        | true =>
          rw [(String.isEmpty_iff s).mp hb] at h
          exact absurd h (by decide)
      rw [he]
      simp only [Bool.false_eq_true, if_false]
      rw [if_pos h]
      cases hf : s.toList.find? (fun ch => ch ≠ ' ') <;> rfl

/-- Witness for C6: the example row with character text "a". -/
theorem claim_C6_witness :
    ((⟨0, 0, "a"⟩ : Cell).ch = chooseCh (_clean_text "a") ∧
      (⟨0, 0, "a"⟩ : Cell).ch.length = 1) ∧
    chooseCh "xy" = String.singleton
      ((("xy" : String).toList.find? (fun ch => ch ≠ ' ')).getD
        (("xy" : String).toList.headD ' ')) :=
  ⟨claim_C6.1 ["0", "a", "0"] ⟨0, 0, "a"⟩ rfl,
   (claim_C6.2.1 "xy").2.2 (by decide)⟩


/-! ### Shape of the built grid, and the final value at a position -/

theorem rows_foldl_place (mx my : Int) (cells : List Cell) (g : List (List String))
    (hrow : ∀ row ∈ g, row.length = (mx + 1).toNat) :
    ∀ row ∈ cells.foldl (place mx my) g, row.length = (mx + 1).toNat := by
  induction cells generalizing g with
  | nil => exact hrow
  | cons c tl ih =>
    rw [List.foldl_cons]
    exact ih _ (rows_place mx my g c hrow)

theorem entries_foldl_place (mx my : Int) (cells : List Cell) (g : List (List String))
    (hch : ∀ c ∈ cells, c.ch.length = 1)
    (hent : ∀ row ∈ g, ∀ s ∈ row, s.length = 1) :
    ∀ row ∈ cells.foldl (place mx my) g, ∀ s ∈ row, s.length = 1 := by
  induction cells generalizing g with
  | nil => exact hent
  | cons c tl ih =>
    rw [List.foldl_cons]
    exact ih _ (fun d hd => hch d (by simp [hd]))
      (entries_place mx my g c (hch c (by simp)) hent)

/-- The value the rendered grid holds at the position an in-bounds cell
`c` targets, when `c` is the last cell of the sequence with its
coordinates: it is `c.ch`. -/
theorem gridAt_lastWrite (cells : List Cell) (mx my : Int) (g : List (List String))
    (hmx : maxXs cells = some mx) (hmy : maxYs cells = some my)
    (hg : buildGrid cells = some g) (c : Cell)
    (hx0 : 0 ≤ c.x) (hx1 : c.x ≤ mx) (hy0 : 0 ≤ c.y) (hy1 : c.y ≤ my)
    (hlast : (cells.filter (fun d => d.x == c.x && d.y == c.y)).getLast? = some c) :
    gridAt g (my - c.y).toNat c.x.toNat = c.ch := by
  rw [gridAt_buildGrid cells mx my g hmx hmy hg]
  have hfe : ∀ d ∈ cells,
      hits mx my (my - c.y).toNat c.x.toNat d = (d.x == c.x && d.y == c.y) := by
    intro d _
    unfold hits
    by_cases hdb : 0 ≤ d.x ∧ d.x ≤ mx ∧ 0 ≤ d.y ∧ d.y ≤ my
    · rw [decide_eq_true hdb, Bool.true_and]
      by_cases hdx : d.x = c.x
      · by_cases hdy : d.y = c.y
        · rw [hdx, hdy]
          simp
        · have hne : ((my - d.y).toNat == (my - c.y).toNat) = false :=
            beq_eq_false_iff_ne.mpr (by omega)
          rw [hne, Bool.false_and, beq_eq_false_iff_ne.mpr hdy, Bool.and_false]
      · have hne : (d.x.toNat == c.x.toNat) = false :=
          beq_eq_false_iff_ne.mpr (by omega)
        rw [hne, Bool.and_false, beq_eq_false_iff_ne.mpr hdx, Bool.false_and]
    · rw [decide_eq_false hdb, Bool.false_and, Bool.false_and]
      by_cases hdx : d.x = c.x
      · by_cases hdy : d.y = c.y
        · exfalso
          apply hdb
          rw [hdx, hdy]
          exact ⟨hx0, hx1, hy0, hy1⟩
        · rw [beq_eq_false_iff_ne.mpr hdy, Bool.and_false]
      · rw [beq_eq_false_iff_ne.mpr hdx, Bool.false_and]
  rw [List.filter_congr hfe, hlast]

/-- C1: every in-bounds cell has its character written at transformed row
`max_y - y`, column `x` (final value, when no later cell shares its
coordinates), and every position no in-bounds cell targets holds the
blank space. -/
theorem claim_C1 (cells : List Cell) (mx my : Int) (g : List (List String))
    (hmx : maxXs cells = some mx) (hmy : maxYs cells = some my)
    (hg : buildGrid cells = some g) :
    (∀ c, 0 ≤ c.x → c.x ≤ mx → 0 ≤ c.y → c.y ≤ my →
      (cells.filter (fun d => d.x == c.x && d.y == c.y)).getLast? = some c →
      gridAt g (my - c.y).toNat c.x.toNat = c.ch) ∧
    (∀ r col : Nat, (∀ c ∈ cells, hits mx my r col c = false) →
      gridAt g r col = " ") := by
  constructor
  · intro c hx0 hx1 hy0 hy1 hlast
    exact gridAt_lastWrite cells mx my g hmx hmy hg c hx0 hx1 hy0 hy1 hlast
  · intro r col hnone
    rw [gridAt_buildGrid cells mx my g hmx hmy hg]
    have hfil : cells.filter (hits mx my r col) = [] :=
      List.filter_eq_nil_iff.mpr (fun d hd => by rw [hnone d hd]; simp)
    rw [hfil]
    rfl

/-- Witness for C1: in the example grid, cell (1, 0, "b") appears at row
1, column 1, and the untouched position (0, 1) is blank. -/
theorem claim_C1_witness :
    gridAt [["c", " "], ["a", "b"]] ((1 : Int) - (0 : Int)).toNat
        ((1 : Int) : Int).toNat = "b" ∧
    gridAt [["c", " "], ["a", "b"]] 0 1 = " " :=
  ⟨(claim_C1 [⟨0, 0, "a"⟩, ⟨1, 0, "b"⟩, ⟨0, 1, "c"⟩] 1 1 [["c", " "], ["a", "b"]]
      rfl rfl rfl).1 ⟨1, 0, "b"⟩ (by decide) (by decide) (by decide) (by decide) rfl,
   (claim_C1 [⟨0, 0, "a"⟩, ⟨1, 0, "b"⟩, ⟨0, 1, "c"⟩] 1 1 [["c", " "], ["a", "b"]]
      rfl rfl rfl).2 0 1 (by decide)⟩

/-- C3: when a cell `b` shares its coordinates with an earlier cell `a`
but has a different character, and `b` is the last cell with those
coordinates, the grid position targeted by them holds `b`'s character and
not `a`'s: the later row silently overwrites, and no error is possible
(`buildGrid` still returns a grid). -/
theorem claim_C3 (cells : List Cell) (mx my : Int) (g : List (List String))
    (hmx : maxXs cells = some mx) (hmy : maxYs cells = some my)
    (hg : buildGrid cells = some g) (a b : Cell)
    (hab : [a, b].Sublist cells) (hx : a.x = b.x) (hy : a.y = b.y)
    (hch : a.ch ≠ b.ch)
    (hbx0 : 0 ≤ b.x) (hbx1 : b.x ≤ mx) (hby0 : 0 ≤ b.y) (hby1 : b.y ≤ my)
    (hlast : (cells.filter (fun d => d.x == b.x && d.y == b.y)).getLast? = some b) :
    gridAt g (my - b.y).toNat b.x.toNat = b.ch ∧
    gridAt g (my - b.y).toNat b.x.toNat ≠ a.ch := by
  have hb := gridAt_lastWrite cells mx my g hmx hmy hg b hbx0 hbx1 hby0 hby1 hlast
  refine ⟨hb, ?_⟩
  rw [hb]
  exact Ne.symm hch

/-- Witness for C3: two cells at (0, 0), first "a" then "b"; the single
grid position holds "b". -/
theorem claim_C3_witness :
    gridAt [["b"]] ((0 : Int) - (0 : Int)).toNat ((0 : Int) : Int).toNat = "b" ∧
    gridAt [["b"]] ((0 : Int) - (0 : Int)).toNat ((0 : Int) : Int).toNat ≠ "a" :=
  claim_C3 [⟨0, 0, "a"⟩, ⟨0, 0, "b"⟩] 0 0 [["b"]] rfl rfl rfl
    ⟨0, 0, "a"⟩ ⟨0, 0, "b"⟩ (List.Sublist.refl _) rfl rfl (by decide)
    (by decide) (by decide) (by decide) (by decide) rfl


theorem length_filterMap_eq_length_filter {α β : Type} (f : α → Option β) (l : List α) :
    (l.filterMap f).length = (l.filter (fun a => (f a).isSome)).length := by
  induction l with
  | nil => rfl
  | cons a tl ih =>
    rw [List.filterMap_cons, List.filter_cons]
    cases hfa : f a with
    | none => simp [hfa, ih]
    | some b => simp [hfa, ih]

/-- C8: the parser's output is exactly the cells of the accepted data
rows, in source order, with no deduplication and no sorting: it is the
`filterMap` of the row loop over the data rows, its length counts every
accepted row once, and cells of two accepted rows appear at positions in
the same relative order as their rows. -/
theorem claim_C8 (doc : HDoc) (t : HTable) (cs : List Cell)
    (hdoc : doc.tables.head? = some t)
    (hok : _parse_cells_from_published_doc_html doc = .ok cs) :
    cs = (t.drop 1).filterMap parseRowCells ∧
    cs.length = ((t.drop 1).filter (fun r => (parseRowCells r).isSome)).length ∧
    (∀ (i j : Nat) (ri rj : HRow) (a b : Cell), i < j →
      (t.drop 1)[i]? = some ri → (t.drop 1)[j]? = some rj →
      parseRowCells ri = some a → parseRowCells rj = some b →
      ∃ p q : Nat, p < q ∧ cs[p]? = some a ∧ cs[q]? = some b) := by
  rcases (parse_ok_iff doc cs).mp hok with ⟨t', ht', hlen, hcs, hne⟩
  rw [hdoc] at ht'
  injection ht' with ht'
  subst ht'
  refine ⟨hcs, ?_, ?_⟩
  · rw [hcs]
    exact length_filterMap_eq_length_filter _ _
  · intro i j ri rj a b hij hri hrj ha hb
    refine ⟨(((t.drop 1).take i).filterMap parseRowCells).length,
      (((t.drop 1).take j).filterMap parseRowCells).length, ?_, ?_, ?_⟩
    · exact filterMap_take_length_lt parseRowCells (t.drop 1) i j ri hij hri
        (by rw [ha]; rfl)
    · rw [hcs]
      exact filterMap_getElem_of_accepted parseRowCells (t.drop 1) i ri a hri ha
    · rw [hcs]
      exact filterMap_getElem_of_accepted parseRowCells (t.drop 1) j rj b hrj hb

/-- Witness for C8: in the example document the cells of data rows 0 and
2 appear in that order. -/
theorem claim_C8_witness :
    ∃ p q : Nat, p < q ∧
      ([⟨0, 0, "a"⟩, ⟨1, 0, "b"⟩, ⟨0, 1, "c"⟩] : List Cell)[p]? = some ⟨0, 0, "a"⟩ ∧
      ([⟨0, 0, "a"⟩, ⟨1, 0, "b"⟩, ⟨0, 1, "c"⟩] : List Cell)[q]? = some ⟨0, 1, "c"⟩ :=
  (claim_C8 docEx _ _ rfl rfl).2.2 0 2 ["0", "a", "0"] ["0", "c", "1"]
    ⟨0, 0, "a"⟩ ⟨0, 1, "c"⟩ (by decide) rfl rfl rfl rfl

theorem buildGrid_isSome (cells : List Cell) (h : cells ≠ []) :
    ∃ g, buildGrid cells = some g := by
  cases cells with
  | nil => exact absurd rfl h
  | cons c tl => exact ⟨_, rfl⟩

/-- C9: a successful parse always yields a non-empty sequence, so the
maxima in grid construction never see an empty sequence and the
`max`-on-empty failure is unreachable in the pipeline. -/
theorem claim_C9 :
    (∀ (doc : HDoc) (cs : List Cell),
      _parse_cells_from_published_doc_html doc = .ok cs →
      cs ≠ [] ∧ ∃ g, buildGrid cs = some g) ∧
    (∀ (parseHtml : String → HDoc) (r : RawResponse),
      print_secret_message_grid parseHtml r ≠ .error .emptyMax) := by
  constructor
  · intro doc cs hok
    rcases (parse_ok_iff doc cs).mp hok with ⟨t, _, _, _, hne⟩
    exact ⟨hne, buildGrid_isSome cs hne⟩
  · intro ph r
    unfold print_secret_message_grid
    cases hf : fetchText r with
    | error e => simp
    | ok body =>
      simp only
      cases hp : _parse_cells_from_published_doc_html (ph body) with
      | error e => simp
      | ok cells =>
        simp only
        rcases (parse_ok_iff _ _).mp hp with ⟨t, _, _, _, hne⟩
        rcases buildGrid_isSome cells hne with ⟨g, hg⟩
        rw [hg]
        simp

/-- Witness for C9: the example document's cells reach grid construction
successfully. -/
theorem claim_C9_witness :
    ([⟨0, 0, "a"⟩, ⟨1, 0, "b"⟩, ⟨0, 1, "c"⟩] : List Cell) ≠ [] ∧
    ∃ g, buildGrid [(⟨0, 0, "a"⟩ : Cell), ⟨1, 0, "b"⟩, ⟨0, 1, "c"⟩] = some g :=
  claim_C9.1 docEx _ rfl


/-- C10: the parser accepts rows with signed (negative) coordinates, yet
the placement loop silently ignores every cell with a negative
coordinate (the fold is unchanged if such cells are removed), and the
indices of every write performed for an in-bounds cell are within the
allocated grid, so no out-of-range access occurs. -/
theorem claim_C10 :
    (_parse_cells_from_published_doc_html docNegXY =
      .ok [⟨-1, -2, "a"⟩, ⟨0, 0, "b"⟩]) ∧
    (∀ (mx my : Int) (cells : List Cell) (g : List (List String)),
      cells.foldl (place mx my) g =
        (cells.filter (fun c => decide (0 ≤ c.x) && decide (0 ≤ c.y))).foldl
          (place mx my) g) ∧
    (∀ (mx my : Int) (c : Cell),
      0 ≤ c.x → c.x ≤ mx → 0 ≤ c.y → c.y ≤ my →
      (my - c.y).toNat < (emptyGrid mx my).length ∧
      c.x.toNat < ((emptyGrid mx my).getD (my - c.y).toNat []).length) := by
  refine ⟨rfl, ?_, ?_⟩
  · intro mx my cells
    induction cells with
    | nil => intro g; rfl
    | cons c tl ih =>
      intro g
      rw [List.foldl_cons, List.filter_cons]
      by_cases hc : (decide (0 ≤ c.x) && decide (0 ≤ c.y)) = true
      · rw [if_pos hc, List.foldl_cons]
        exact ih (place mx my g c)
      · rw [if_neg hc]
        simp only [Bool.and_eq_true, decide_eq_true_eq, not_and_or] at hc
        have hskip : place mx my g c = g := by
          unfold place
          rw [if_neg]
          rintro ⟨h1, _, h3, _⟩
          rcases hc with hc | hc
          · exact hc h1
          · exact hc h3
        rw [hskip]
        exact ih g
  · intro mx my c hx0 hx1 hy0 hy1
    have hr : (my - c.y).toNat < (emptyGrid mx my).length := by
      rw [length_emptyGrid]
      omega
    refine ⟨hr, ?_⟩
    unfold emptyGrid
    rw [getD_replicate_eq, if_pos (by rw [length_emptyGrid] at hr; exact hr)]
    rw [List.length_replicate]
    omega

/-- Witness for C10: the in-bounds cell (0, 0, "b") writes inside the
1×1 grid. -/
theorem claim_C10_witness :
    ((0 : Int) - (0 : Int)).toNat < (emptyGrid 0 0).length ∧
    ((0 : Int) : Int).toNat < ((emptyGrid 0 0).getD ((0 : Int) - (0 : Int)).toNat []).length :=
  claim_C10.2.2 0 0 ⟨0, 0, "b"⟩ (by decide) (by decide) (by decide) (by decide)


/-- Counterexample to C2 as stated: the table whose only valid row is
(0, "a", -2) parses successfully, `max_y = -2`, and the program renders
0 lines — not `max_y + 1 = -1` lines (`range(max_y + 1)` is empty for a
negative bound). -/
theorem claim_C2_counterexample :
    _parse_cells_from_published_doc_html docNegY = .ok [⟨0, -2, "a"⟩] ∧
    maxXs [(⟨0, -2, "a"⟩ : Cell)] = some 0 ∧
    maxYs [(⟨0, -2, "a"⟩ : Cell)] = some (-2) ∧
    buildGrid [(⟨0, -2, "a"⟩ : Cell)] = some [] ∧
    ((renderGrid ([] : List (List String))).length : Int) = 0 ∧
    ¬((0 : Int) = (-2) + 1) :=
  ⟨rfl, rfl, rfl, rfl, rfl, by decide⟩

/-- C2 amended: for every well-formed input table the rendered output has
`max(max_y + 1, 0)` lines, each of length `max(max_x + 1, 0)` — which
equal `max_y + 1` and `max_x + 1` whenever the maxima are non-negative,
in particular whenever any cell has non-negative coordinates on that
axis. -/
theorem claim_C2_amended (doc : HDoc) (cs : List Cell) (mx my : Int)
    (g : List (List String))
    (hok : _parse_cells_from_published_doc_html doc = .ok cs)
    (hmx : maxXs cs = some mx) (hmy : maxYs cs = some my)
    (hg : buildGrid cs = some g) :
    (renderGrid g).length = (my + 1).toNat ∧
    ∀ line ∈ renderGrid g, line.length = (mx + 1).toNat := by
  rw [buildGrid_eq cs mx my hmx hmy] at hg
  have hg2 := Option.some.inj hg
  subst hg2
  constructor
  · unfold renderGrid
    rw [List.length_map, length_foldl_place, length_emptyGrid]
  · intro line hline
    unfold renderGrid at hline
    rcases List.mem_map.mp hline with ⟨row, hrow, hjoin⟩
    have hlen : row.length = (mx + 1).toNat :=
      rows_foldl_place mx my cs (emptyGrid mx my) (rows_emptyGrid mx my) row hrow
    have hones : ∀ s ∈ row, s.length = 1 :=
      entries_foldl_place mx my cs (emptyGrid mx my)
        (parse_ch_length doc cs hok) (entries_emptyGrid mx my) row hrow
    rw [← hjoin, join_length_of_ones row hones, hlen]

/-- Witness for C2 (amended): the example document renders 2 lines of
length 2. -/
theorem claim_C2_amended_witness :
    (renderGrid [["c", " "], ["a", "b"]]).length = ((1 : Int) + 1).toNat ∧
    ∀ line ∈ renderGrid [["c", " "], ["a", "b"]],
      line.length = ((1 : Int) + 1).toNat :=
  claim_C2_amended docEx [⟨0, 0, "a"⟩, ⟨1, 0, "b"⟩, ⟨0, 1, "c"⟩] 1 1
    [["c", " "], ["a", "b"]] rfl rfl rfl rfl

/-- Counterexample to C7 as stated: a 304 response has a non-success
(non-2xx) status, yet `raise_for_status` does not raise and the body is
returned for parsing instead of failing. -/
theorem claim_C7_counterexample :
    ¬(200 ≤ (304 : Nat) ∧ (304 : Nat) < 300) ∧
    fetchText ⟨304, "x"⟩ = .ok "x" ∧
    ∀ e : FetchError, fetchText ⟨304, "x"⟩ ≠ .error e := by
  refine ⟨by decide, rfl, ?_⟩
  intro e h
  rw [show fetchText ⟨304, "x"⟩ = .ok "x" from rfl] at h
  exact Except.noConfusion h

/-- C7 amended: a 2xx response's raw body text is returned and passed to
the parser; a 4xx or 5xx response fails with a fetch-level error carrying
the status before any parsing occurs (independently of the HTML parser);
statuses outside 400–599 (e.g. 1xx/3xx) also return the body, since
`raise_for_status` raises only for 4xx and 5xx. -/
theorem claim_C7_amended (r : RawResponse) :
    (200 ≤ r.status → r.status < 300 → fetchText r = .ok r.text) ∧
    (400 ≤ r.status → r.status < 600 →
      fetchText r = .error ⟨r.status⟩ ∧
      ∀ parseHtml, print_secret_message_grid parseHtml r = .error (.fetch r.status)) ∧
    (¬(400 ≤ r.status ∧ r.status < 600) → fetchText r = .ok r.text) := by
  refine ⟨?_, ?_, ?_⟩
  · intro h2 h3
    unfold fetchText
    rw [if_neg (by omega)]
  · intro h4 h6
    have hf : fetchText r = .error ⟨r.status⟩ := by
      unfold fetchText
      rw [if_pos ⟨h4, h6⟩]
    refine ⟨hf, ?_⟩
    intro ph
    unfold print_secret_message_grid
    rw [hf]
  · intro hn
    unfold fetchText
    rw [if_neg hn]

/-- Witness for C7 (amended): a 200 response hands its body over and a
404 response fails before parsing. -/
theorem claim_C7_amended_witness :
    fetchText ⟨200, "hi"⟩ = .ok "hi" ∧
    fetchText ⟨404, "nope"⟩ = .error ⟨404⟩ :=
  ⟨(claim_C7_amended ⟨200, "hi"⟩).1 (by decide) (by decide),
   ((claim_C7_amended ⟨404, "nope"⟩).2.1 (by decide) (by decide)).1⟩

end Career
